import Mathlib

/-!
Verification of the two-script batch pipeline (`get_user.py`,
`get_result_from_minio.py`): anonymization, flattening, columnar
round trip, encryption envelope, and artifact naming.

Python records are embedded as `PyVal` values: dicts are ordered
association lists (insertion order, as in Python 3.7+), strings and
ints are literal, `None` is `PyVal.null`.  Statements that can raise
(`user['name']['first'] = v` raises `KeyError`/`TypeError` on a missing
or non-dict sub-object) are embedded in the `Option` monad; in-place
mutation is embedded by explicit state passing.
-/

set_option autoImplicit false

namespace Pipeline

/-- A Python value as used by these scripts: `None`, strings, ints, and
insertion-ordered dicts with string keys. -/
inductive PyVal where
  | null : PyVal
  | str : String → PyVal
  | int : Int → PyVal
  | dict : List (String × PyVal) → PyVal

/-- Python dict lookup `d[k]` / `d.get(k)` on the ordered entry list:
first (only) binding of `k`. -/
def lookupKey : List (String × PyVal) → String → Option PyVal
  | [], _ => Option.none
  | (k2, v) :: rest, k => if k2 = k then some v else lookupKey rest k

/-- Python dict assignment `d[k] = v` on the ordered entry list: an existing
key keeps its position, a new key is appended at the end (insertion order). -/
def setKey : List (String × PyVal) → String → PyVal → List (String × PyVal)
  | [], k, v => [(k, v)]
  | (k2, v2) :: rest, k, v =>
      if k2 = k then (k, v) :: rest else (k2, v2) :: setKey rest k v

/-- Python subscript read `v[k]`: succeeds only on a dict holding `k`
(`KeyError` / `TypeError` otherwise). -/
def getItem (v : PyVal) (k : String) : Option PyVal :=
  match v with
  | .dict es => lookupKey es k
  | _ => Option.none

/-- Python subscript assignment `v[k] = x`: succeeds only on a dict
(`TypeError` otherwise). -/
def setItem (v : PyVal) (k : String) (x : PyVal) : Option PyVal :=
  match v with
  | .dict es => some (.dict (setKey es k x))
  | _ => Option.none

/-- `v[k1][k2] = x`: reads the sub-object, mutates it, and (because the
embedding passes values where Python shares references) writes it back. -/
def setItem2 (v : PyVal) (k1 k2 : String) (x : PyVal) : Option PyVal :=
  match getItem v k1 with
  | some s1 =>
      match setItem s1 k2 x with
      | some s1b => setItem v k1 s1b
      | Option.none => Option.none
  | Option.none => Option.none

/-- `v[k1][k2][k3] = x`, with the same write-back embedding of shared
mutable sub-objects. -/
def setItem3 (v : PyVal) (k1 k2 k3 : String) (x : PyVal) : Option PyVal :=
  match getItem v k1 with
  | some s1 =>
      match getItem s1 k2 with
      | some s2 =>
          match setItem s2 k3 x with
          | some s2b =>
              match setItem s1 k2 s2b with
              | some s1b => setItem v k1 s1b
              | Option.none => Option.none
          | Option.none => Option.none
      | Option.none => Option.none
  | Option.none => Option.none

/-- `v[a][b]` as a read. -/
def getItem2 (v : PyVal) (a b : String) : Option PyVal :=
  (getItem v a).bind (fun x => getItem x b)

/-- `v[a][b][c]` as a read. -/
def getItem3 (v : PyVal) (a b c : String) : Option PyVal :=
  (getItem2 v a b).bind (fun x => getItem x c)

/-- The body of the `for user in users` loop of `anonymize_user_data`
(get_user.py lines 40-63): twelve subscript assignments, in source order.
Any missing / non-dict sub-object raises, which the embedding reports as
`Option.none`. -/
def anonymizeUser (u : PyVal) : Option PyVal :=
  match setItem2 u "name" "first" (.str "ANONYMIZED_FIRST") with
  | Option.none => Option.none
  | some u1 =>
  match setItem2 u1 "name" "last" (.str "ANONYMIZED_LAST") with
  | Option.none => Option.none
  | some u2 =>
  match setItem3 u2 "location" "street" "number" (.str "ANONYMIZED_NUMBER") with
  | Option.none => Option.none
  | some u3 =>
  match setItem3 u3 "location" "street" "name" (.str "ANONYMIZED_STREET") with
  | Option.none => Option.none
  | some u4 =>
  match setItem3 u4 "location" "coordinates" "latitude" (.str "0.0000") with
  | Option.none => Option.none
  | some u5 =>
  match setItem3 u5 "location" "coordinates" "longitude" (.str "0.0000") with
  | Option.none => Option.none
  | some u6 =>
  match setItem2 u6 "login" "username" (.str "ANONYMIZED_USERNAME") with
  | Option.none => Option.none
  | some u7 =>
  match setItem2 u7 "login" "password" (.str "ANONYMIZED_PASSWORD") with
  | Option.none => Option.none
  | some u8 =>
  match setItem2 u8 "dob" "date" (.str "1970-01-01T00:00:00.000Z") with
  | Option.none => Option.none
  | some u9 =>
  match setItem2 u9 "dob" "age" (.int 0) with
  | Option.none => Option.none
  | some u10 =>
  match setItem u10 "phone" (.str "ANONYMIZED_PHONE") with
  | Option.none => Option.none
  | some u11 =>
  setItem u11 "cell" (.str "ANONYMIZED_CELL")

/-- `anonymize_user_data(users)` (get_user.py lines 39-64): anonymize each
record; an exception in any iteration propagates (`Option.none`). -/
def anonymize_user_data : List PyVal → Option (List PyVal)
  | [] => some []
  | u :: rest =>
      match anonymizeUser u with
      | some u2 =>
          match anonymize_user_data rest with
          | some out => some (u2 :: out)
          | Option.none => Option.none
      | Option.none => Option.none

/-- Python `v.get(k)`: `None` default; raises (`AttributeError`) unless `v`
is a dict. -/
def pyGet (v : PyVal) (k : String) : Option PyVal :=
  match v with
  | .dict es => some ((lookupKey es k).getD .null)
  | _ => Option.none

/-- Python `v.get(k, d)`: explicit default; raises unless `v` is a dict. -/
def pyGetD (v : PyVal) (k : String) (d : PyVal) : Option PyVal :=
  match v with
  | .dict es => some ((lookupKey es k).getD d)
  | _ => Option.none

/-- The body of the `for user in users` loop of `flatten_user_data`
(get_user.py lines 69-134): the 34 fixed columns in source order.  The
result is the flat row dict, given by its ordered entries. -/
def flattenUser (u : PyVal) : Option (List (String × PyVal)) :=
  match pyGet u "gender" with
  | Option.none => Option.none
  | some gender =>
  match pyGetD u "name" (.dict []) with
  | Option.none => Option.none
  | some nameV =>
  match pyGet nameV "title" with
  | Option.none => Option.none
  | some nameTitle =>
  match pyGet nameV "first" with
  | Option.none => Option.none
  | some nameFirst =>
  match pyGet nameV "last" with
  | Option.none => Option.none
  | some nameLast =>
  match pyGetD u "location" (.dict []) with
  | Option.none => Option.none
  | some location =>
  match pyGetD location "street" (.dict []) with
  | Option.none => Option.none
  | some street =>
  match pyGet street "number" with
  | Option.none => Option.none
  | some streetNumber =>
  match pyGet street "name" with
  | Option.none => Option.none
  | some streetName =>
  match pyGet location "city" with
  | Option.none => Option.none
  | some city =>
  match pyGet location "state" with
  | Option.none => Option.none
  | some state =>
  match pyGet location "country" with
  | Option.none => Option.none
  | some country =>
  match pyGet location "postcode" with
  | Option.none => Option.none
  | some postcode =>
  match pyGetD location "coordinates" (.dict []) with
  | Option.none => Option.none
  | some coordinates =>
  match pyGet coordinates "latitude" with
  | Option.none => Option.none
  | some latitude =>
  match pyGet coordinates "longitude" with
  | Option.none => Option.none
  | some longitude =>
  match pyGetD location "timezone" (.dict []) with
  | Option.none => Option.none
  | some timezone =>
  match pyGet timezone "offset" with
  | Option.none => Option.none
  | some tzOffset =>
  match pyGet timezone "description" with
  | Option.none => Option.none
  | some tzDescription =>
  match pyGet u "email" with
  | Option.none => Option.none
  | some email =>
  match pyGetD u "login" (.dict []) with
  | Option.none => Option.none
  | some login =>
  match pyGet login "uuid" with
  | Option.none => Option.none
  | some loginUuid =>
  match pyGet login "username" with
  | Option.none => Option.none
  | some username =>
  match pyGet login "password" with
  | Option.none => Option.none
  | some password =>
  match pyGet login "salt" with
  | Option.none => Option.none
  | some salt =>
  match pyGet login "md5" with
  | Option.none => Option.none
  | some md5 =>
  match pyGet login "sha1" with
  | Option.none => Option.none
  | some sha1 =>
  match pyGet login "sha256" with
  | Option.none => Option.none
  | some sha256 =>
  match pyGetD u "dob" (.dict []) with
  | Option.none => Option.none
  | some dob =>
  match pyGet dob "date" with
  | Option.none => Option.none
  | some dobDate =>
  match pyGet dob "age" with
  | Option.none => Option.none
  | some dobAge =>
  match pyGetD u "registered" (.dict []) with
  | Option.none => Option.none
  | some registered =>
  match pyGet registered "date" with
  | Option.none => Option.none
  | some regDate =>
  match pyGet registered "age" with
  | Option.none => Option.none
  | some regAge =>
  match pyGet u "phone" with
  | Option.none => Option.none
  | some phone =>
  match pyGet u "cell" with
  | Option.none => Option.none
  | some cell =>
  match pyGetD u "id" (.dict []) with
  | Option.none => Option.none
  | some idInfo =>
  match pyGet idInfo "name" with
  | Option.none => Option.none
  | some idName =>
  match pyGet idInfo "value" with
  | Option.none => Option.none
  | some idValue =>
  match pyGetD u "picture" (.dict []) with
  | Option.none => Option.none
  | some picture =>
  match pyGet picture "large" with
  | Option.none => Option.none
  | some picLarge =>
  match pyGet picture "medium" with
  | Option.none => Option.none
  | some picMedium =>
  match pyGet picture "thumbnail" with
  | Option.none => Option.none
  | some picThumbnail =>
  match pyGet u "nat" with
  | Option.none => Option.none
  | some natV =>
  some [("gender", gender), ("name_title", nameTitle), ("name_first", nameFirst),
        ("name_last", nameLast), ("street_number", streetNumber),
        ("street_name", streetName), ("city", city), ("state", state),
        ("country", country), ("postcode", postcode), ("latitude", latitude),
        ("longitude", longitude), ("timezone_offset", tzOffset),
        ("timezone_description", tzDescription), ("email", email),
        ("login_uuid", loginUuid), ("username", username),
        ("password", password), ("salt", salt), ("md5", md5), ("sha1", sha1),
        ("sha256", sha256), ("dob_date", dobDate), ("dob_age", dobAge),
        ("registered_date", regDate), ("registered_age", regAge),
        ("phone", phone), ("cell", cell), ("id_name", idName),
        ("id_value", idValue), ("picture_large", picLarge),
        ("picture_medium", picMedium), ("picture_thumbnail", picThumbnail),
        ("nat", natV)]

/-- `flatten_user_data(users)` (get_user.py lines 66-135): one flat row per
record, in input order; an exception in any iteration propagates. -/
def flatten_user_data : List PyVal → Option (List (List (String × PyVal)))
  | [] => some []
  | u :: rest =>
      match flattenUser u with
      | some r =>
          match flatten_user_data rest with
          | some rs => some (r :: rs)
          | Option.none => Option.none
      | Option.none => Option.none

/-! ### Dictionary lemmas -/

theorem lookupKey_setKey (d : List (String × PyVal)) (k k2 : String) (v : PyVal) :
    lookupKey (setKey d k v) k2 = if k2 = k then some v else lookupKey d k2 := by
  induction d with
  | nil =>
      simp only [setKey, lookupKey]
      by_cases h : k = k2
      · subst h; simp
      · simp [h, Ne.symm h]
  | cons e rest ih =>
      obtain ⟨ke, ve⟩ := e
      simp only [setKey]
      by_cases hke : ke = k
      · subst hke
        simp only [if_pos rfl, lookupKey]
        by_cases h : ke = k2
        · subst h; simp
        · simp [h, Ne.symm h]
      · simp only [if_neg hke, lookupKey, ih]
        by_cases h : ke = k2
        · subst h
          simp [hke]
        · simp [h]

/-- A record of the shape `anonymize_user_data` requires: the targeted
sub-objects `name`, `location`, `location.street`, `location.coordinates`,
`login` and `dob` are all present and are dicts. -/
def SubObjsPresent (u : PyVal) : Prop :=
  ∃ es nm loc st co lg db,
    u = PyVal.dict es ∧
    lookupKey es "name" = some (PyVal.dict nm) ∧
    lookupKey es "location" = some (PyVal.dict loc) ∧
    lookupKey loc "street" = some (PyVal.dict st) ∧
    lookupKey loc "coordinates" = some (PyVal.dict co) ∧
    lookupKey es "login" = some (PyVal.dict lg) ∧
    lookupKey es "dob" = some (PyVal.dict db)

/-- A concrete raw record (shape of a randomuser.me record) used to
instantiate hypotheses at concrete inputs. -/
def sampleUser : PyVal :=
  .dict [("gender", .str "female"),
         ("name", .dict [("title", .str "Ms"), ("first", .str "Jane"),
                         ("last", .str "Doe")]),
         ("location", .dict [("street", .dict [("number", .int 9278),
                                               ("name", .str "Main Street")]),
                             ("city", .str "Springfield"),
                             ("postcode", .str "00501"),
                             ("coordinates", .dict [("latitude", .str "12.9"),
                                                    ("longitude", .str "3.4")])]),
         ("email", .str "jane.doe@example.com"),
         ("login", .dict [("uuid", .str "u-1"), ("username", .str "janed"),
                          ("password", .str "hunter2")]),
         ("dob", .dict [("date", .str "1990-05-01T00:00:00.000Z"),
                        ("age", .int 35)]),
         ("phone", .str "011-962-7516"),
         ("cell", .str "081-454-0666"),
         ("nat", .str "IE")]

/-- The per-record contract of anonymization: the twelve targeted leaf
fields hold their fixed sentinel constants, and any other field, at any of
the touched levels, reads the same as in the input record. -/
def AnonRel (u uA : PyVal) : Prop :=
  getItem2 uA "name" "first" = some (.str "ANONYMIZED_FIRST") ∧
  getItem2 uA "name" "last" = some (.str "ANONYMIZED_LAST") ∧
  getItem3 uA "location" "street" "number" = some (.str "ANONYMIZED_NUMBER") ∧
  getItem3 uA "location" "street" "name" = some (.str "ANONYMIZED_STREET") ∧
  getItem3 uA "location" "coordinates" "latitude" = some (.str "0.0000") ∧
  getItem3 uA "location" "coordinates" "longitude" = some (.str "0.0000") ∧
  getItem2 uA "login" "username" = some (.str "ANONYMIZED_USERNAME") ∧
  getItem2 uA "login" "password" = some (.str "ANONYMIZED_PASSWORD") ∧
  getItem2 uA "dob" "date" = some (.str "1970-01-01T00:00:00.000Z") ∧
  getItem2 uA "dob" "age" = some (.int 0) ∧
  getItem uA "phone" = some (.str "ANONYMIZED_PHONE") ∧
  getItem uA "cell" = some (.str "ANONYMIZED_CELL") ∧
  (∀ k, k ≠ "name" → k ≠ "location" → k ≠ "login" → k ≠ "dob" →
      k ≠ "phone" → k ≠ "cell" → getItem uA k = getItem u k) ∧
  (∀ k, k ≠ "first" → k ≠ "last" → getItem2 uA "name" k = getItem2 u "name" k) ∧
  (∀ k, k ≠ "street" → k ≠ "coordinates" →
      getItem2 uA "location" k = getItem2 u "location" k) ∧
  (∀ k, k ≠ "number" → k ≠ "name" →
      getItem3 uA "location" "street" k = getItem3 u "location" "street" k) ∧
  (∀ k, k ≠ "latitude" → k ≠ "longitude" →
      getItem3 uA "location" "coordinates" k =
        getItem3 u "location" "coordinates" k) ∧
  (∀ k, k ≠ "username" → k ≠ "password" →
      getItem2 uA "login" k = getItem2 u "login" k) ∧
  (∀ k, k ≠ "date" → k ≠ "age" → getItem2 uA "dob" k = getItem2 u "dob" k)

/-- The entry list that the twelve in-place assignments of the loop body
leave behind, given the entry lists of the record and of its targeted
sub-objects. -/
def anonymizeEntries (es nm loc st co lg db : List (String × PyVal)) :
    List (String × PyVal) :=
  let nm1 := setKey nm "first" (.str "ANONYMIZED_FIRST")
  let es1 := setKey es "name" (.dict nm1)
  let nm2 := setKey nm1 "last" (.str "ANONYMIZED_LAST")
  let es2 := setKey es1 "name" (.dict nm2)
  let st1 := setKey st "number" (.str "ANONYMIZED_NUMBER")
  let loc1 := setKey loc "street" (.dict st1)
  let es3 := setKey es2 "location" (.dict loc1)
  let st2 := setKey st1 "name" (.str "ANONYMIZED_STREET")
  let loc2 := setKey loc1 "street" (.dict st2)
  let es4 := setKey es3 "location" (.dict loc2)
  let co1 := setKey co "latitude" (.str "0.0000")
  let loc3 := setKey loc2 "coordinates" (.dict co1)
  let es5 := setKey es4 "location" (.dict loc3)
  let co2 := setKey co1 "longitude" (.str "0.0000")
  let loc4 := setKey loc3 "coordinates" (.dict co2)
  let es6 := setKey es5 "location" (.dict loc4)
  let lg1 := setKey lg "username" (.str "ANONYMIZED_USERNAME")
  let es7 := setKey es6 "login" (.dict lg1)
  let lg2 := setKey lg1 "password" (.str "ANONYMIZED_PASSWORD")
  let es8 := setKey es7 "login" (.dict lg2)
  let db1 := setKey db "date" (.str "1970-01-01T00:00:00.000Z")
  let es9 := setKey es8 "dob" (.dict db1)
  let db2 := setKey db1 "age" (.int 0)
  let es10 := setKey es9 "dob" (.dict db2)
  let es11 := setKey es10 "phone" (.str "ANONYMIZED_PHONE")
  setKey es11 "cell" (.str "ANONYMIZED_CELL")

theorem anonymizeUser_spec (u : PyVal) (h : SubObjsPresent u) :
    ∃ uA, anonymizeUser u = some uA ∧ AnonRel u uA := by
  obtain ⟨es, nm, loc, st, co, lg, db, rfl, hnm, hloc, hst, hco, hlg, hdb⟩ := h
  refine ⟨PyVal.dict (anonymizeEntries es nm loc st co lg db), ?_, ?_⟩
  · simp [anonymizeUser, anonymizeEntries, setItem2, setItem3, setItem, getItem,
          hnm, hloc, hst, hco, hlg, hdb, lookupKey_setKey]
  · refine ⟨?_, ?_, ?_, ?_, ?_, ?_, ?_, ?_, ?_, ?_, ?_, ?_, ?_, ?_, ?_, ?_,
      ?_, ?_, ?_⟩ <;> intros <;>
      simp_all [anonymizeEntries, getItem3, getItem2, getItem, lookupKey_setKey]

theorem anonymizeUser_total (u : PyVal) (h : SubObjsPresent u) :
    ∃ uA, anonymizeUser u = some uA :=
  (anonymizeUser_spec u h).imp fun _ hx => hx.1

/-- State-passing embedding of the call
`anonymized_users = anonymize_user_data(users)`: the Python function
mutates the record dicts held by the caller's list in place and returns
the caller's own list object, so after a successful call the caller's
variable and the returned value hold the same records.  The first
component is the content of the caller's list after the call, the second
the returned value. -/
def anonymize_user_data_call (users : List PyVal) :
    Option (List PyVal × List PyVal) :=
  match anonymize_user_data users with
  | some out => some (out, out)
  | Option.none => Option.none

/-! ### Flattening: declarative schema -/

/-- Leaf extraction along a path, with `null` for a missing step: the
declarative reading of the flattener in §4.2/§6 of the spec ("a path
missing in the input yields a null"). -/
def getPath : PyVal → List String → PyVal
  | v, [] => v
  | .dict es, k :: ps =>
      (match lookupKey es k with
       | some x => getPath x ps
       | Option.none => PyVal.null)
  | _, _ :: _ => PyVal.null

/-- The fixed output schema of §6: column name and source path, in the
order the loop body of `flatten_user_data` inserts them. -/
def flatSchema : List (String × List String) :=
  [("gender", ["gender"]),
   ("name_title", ["name", "title"]),
   ("name_first", ["name", "first"]),
   ("name_last", ["name", "last"]),
   ("street_number", ["location", "street", "number"]),
   ("street_name", ["location", "street", "name"]),
   ("city", ["location", "city"]),
   ("state", ["location", "state"]),
   ("country", ["location", "country"]),
   ("postcode", ["location", "postcode"]),
   ("latitude", ["location", "coordinates", "latitude"]),
   ("longitude", ["location", "coordinates", "longitude"]),
   ("timezone_offset", ["location", "timezone", "offset"]),
   ("timezone_description", ["location", "timezone", "description"]),
   ("email", ["email"]),
   ("login_uuid", ["login", "uuid"]),
   ("username", ["login", "username"]),
   ("password", ["login", "password"]),
   ("salt", ["login", "salt"]),
   ("md5", ["login", "md5"]),
   ("sha1", ["login", "sha1"]),
   ("sha256", ["login", "sha256"]),
   ("dob_date", ["dob", "date"]),
   ("dob_age", ["dob", "age"]),
   ("registered_date", ["registered", "date"]),
   ("registered_age", ["registered", "age"]),
   ("phone", ["phone"]),
   ("cell", ["cell"]),
   ("id_name", ["id", "name"]),
   ("id_value", ["id", "value"]),
   ("picture_large", ["picture", "large"]),
   ("picture_medium", ["picture", "medium"]),
   ("picture_thumbnail", ["picture", "thumbnail"]),
   ("nat", ["nat"])]

/-- The flat row the declarative schema prescribes for a record: one entry
per fixed column, in fixed order, holding the leaf at the column's source
path (or `null` when the path is missing). -/
def specFlatRow (u : PyVal) : List (String × PyVal) :=
  flatSchema.map (fun cp => (cp.1, getPath u cp.2))

/-- A record the flattener accepts without raising: the record is a dict
and each nested sub-object it reads with `.get(k, {})` is either absent
(so the default applies) or itself a dict.  Python raises
`AttributeError` when such an intermediate value is present but not a
dict. -/
def GoodRecord (u : PyVal) : Prop :=
  ∃ es nm loc st co tz lg db rg idf pc,
    u = PyVal.dict es ∧
    pyGetD u "name" (.dict []) = some (PyVal.dict nm) ∧
    pyGetD u "location" (.dict []) = some (PyVal.dict loc) ∧
    pyGetD (PyVal.dict loc) "street" (.dict []) = some (PyVal.dict st) ∧
    pyGetD (PyVal.dict loc) "coordinates" (.dict []) = some (PyVal.dict co) ∧
    pyGetD (PyVal.dict loc) "timezone" (.dict []) = some (PyVal.dict tz) ∧
    pyGetD u "login" (.dict []) = some (PyVal.dict lg) ∧
    pyGetD u "dob" (.dict []) = some (PyVal.dict db) ∧
    pyGetD u "registered" (.dict []) = some (PyVal.dict rg) ∧
    pyGetD u "id" (.dict []) = some (PyVal.dict idf) ∧
    pyGetD u "picture" (.dict []) = some (PyVal.dict pc)

theorem getPath_top (es : List (String × PyVal)) (k : String) :
    getPath (PyVal.dict es) [k] = (lookupKey es k).getD PyVal.null := by
  cases h : lookupKey es k <;> simp [getPath, h]

theorem getPath_sub {es s : List (String × PyVal)} {k : String}
    (h : pyGetD (PyVal.dict es) k (.dict []) = some (PyVal.dict s))
    (k2 : String) :
    getPath (PyVal.dict es) [k, k2] = (lookupKey s k2).getD PyVal.null := by
  simp only [pyGetD, Option.some.injEq] at h
  cases hk : lookupKey es k with
  | none =>
      rw [hk] at h
      simp only [Option.getD_none, PyVal.dict.injEq] at h
      subst h
      simp [getPath, hk, lookupKey]
  | some v =>
      rw [hk] at h
      simp only [Option.getD_some] at h
      subst h
      cases hk2 : lookupKey s k2 <;> simp [getPath, hk, hk2]

theorem getPath_sub2 {es loc s : List (String × PyVal)} {k2 : String}
    (h1 : pyGetD (PyVal.dict es) "location" (.dict []) = some (PyVal.dict loc))
    (h2 : pyGetD (PyVal.dict loc) k2 (.dict []) = some (PyVal.dict s))
    (k3 : String) :
    getPath (PyVal.dict es) ["location", k2, k3] =
      (lookupKey s k3).getD PyVal.null := by
  simp only [pyGetD, Option.some.injEq] at h1
  cases hk : lookupKey es "location" with
  | none =>
      rw [hk] at h1
      simp only [Option.getD_none, PyVal.dict.injEq] at h1
      subst h1
      simp only [pyGetD, lookupKey, Option.getD_none, Option.some.injEq,
        PyVal.dict.injEq] at h2
      subst h2
      simp [getPath, hk, lookupKey]
  | some v =>
      rw [hk] at h1
      simp only [Option.getD_some] at h1
      subst h1
      have := getPath_sub h2 k3
      simp [getPath, hk] at this ⊢
      exact this

theorem flattenUser_spec (u : PyVal) (h : GoodRecord u) :
    flattenUser u = some (specFlatRow u) := by
  obtain ⟨es, nm, loc, st, co, tz, lg, db, rg, idf, pc, rfl, hnm, hloc, hst,
    hco, htz, hlg, hdb, hrg, hid, hpc⟩ := h
  simp [flattenUser, specFlatRow, flatSchema, pyGet, hnm, hloc, hst, hco, htz,
    hlg, hdb, hrg, hid, hpc, getPath_top, getPath_sub hnm, getPath_sub hlg,
    getPath_sub hdb, getPath_sub hrg, getPath_sub hid, getPath_sub hpc,
    getPath_sub2 hloc hst, getPath_sub2 hloc hco, getPath_sub2 hloc htz,
    getPath_sub hloc]

theorem anonymize_user_data_eq :
    ∀ users : List PyVal, (∀ u ∈ users, SubObjsPresent u) →
      ∃ out, anonymize_user_data users = some out ∧
        List.Forall₂ AnonRel users out
  | [], _ => ⟨[], rfl, List.Forall₂.nil⟩
  | u :: rest, h => by
      obtain ⟨uA, huA, hrel⟩ := anonymizeUser_spec u (h u (by simp))
      obtain ⟨out, hout, hrels⟩ :=
        anonymize_user_data_eq rest (fun v hv => h v (by simp [hv]))
      exact ⟨uA :: out, by simp [anonymize_user_data, huA, hout],
        List.Forall₂.cons hrel hrels⟩

theorem flatten_user_data_eq :
    ∀ users : List PyVal, (∀ u ∈ users, GoodRecord u) →
      flatten_user_data users = some (users.map specFlatRow)
  | [], _ => rfl
  | u :: rest, h => by
      have h1 := flattenUser_spec u (h u (by simp))
      have h2 := flatten_user_data_eq rest (fun v hv => h v (by simp [hv]))
      simp [flatten_user_data, h1, h2]

/-! ### Claim C1 -/

/-- C1: for every sequence of raw records in which the nested sub-objects
`name`, `location.street`, `location.coordinates`, `login` and `dob` are
present, anonymization succeeds and, record by record in input order, the
fields name.first, name.last, location.street.number,
location.street.name, location.coordinates.latitude,
location.coordinates.longitude, login.username, login.password, dob.date,
dob.age, phone and cell each hold their fixed sentinel constants, while
every other field of the record reads unchanged from the input
(`AnonRel` states both the twelve sentinel equations and the frame at
every touched level). -/
theorem anonymize_overwrites_exactly_sentinels (users : List PyVal)
    (h : ∀ u ∈ users, SubObjsPresent u) :
    ∃ out, anonymize_user_data users = some out ∧
      List.Forall₂ AnonRel users out :=
  anonymize_user_data_eq users h

/-- C1 witness: the theorem applied at the concrete one-record list
`[sampleUser]`. -/
theorem anonymize_overwrites_exactly_sentinels_witness :
    ∃ out, anonymize_user_data [sampleUser] = some out ∧
      List.Forall₂ AnonRel [sampleUser] out :=
  anonymize_overwrites_exactly_sentinels [sampleUser] (by
    intro u hu
    simp only [List.mem_singleton] at hu
    subst hu
    exact ⟨_, _, _, _, _, _, _, rfl, rfl, rfl, rfl, rfl, rfl, rfl⟩)

/-! ### Claim C6 -/

/-- C6 counterexample: a record with every targeted sub-object absent
makes `anonymize_user_data` raise (`KeyError` on `user['name']`, embedded
as `Option.none`), refuting the claim that anonymization returns normally
on records with missing sub-objects. -/
theorem anonymize_missing_subobject_raises :
    anonymize_user_data [PyVal.dict []] = Option.none := rfl

/-- C6 amended: anonymization does NOT tolerate missing sub-objects (the
loop body indexes them directly and raises `KeyError`); it returns
normally exactly on sequences whose every record carries `name`,
`location` (with `street` and `coordinates`), `login` and `dob` as
dicts. -/
theorem anonymize_returns_normally_on_complete_records (users : List PyVal)
    (h : ∀ u ∈ users, SubObjsPresent u) :
    ∃ out, anonymize_user_data users = some out :=
  (anonymize_user_data_eq users h).imp fun _ hx => hx.1

/-- C6 witness: the amended theorem applied at `[sampleUser]`. -/
theorem anonymize_returns_normally_on_complete_records_witness :
    ∃ out, anonymize_user_data [sampleUser] = some out :=
  anonymize_returns_normally_on_complete_records [sampleUser] (by
    intro u hu
    simp only [List.mem_singleton] at hu
    subst hu
    exact ⟨_, _, _, _, _, _, _, rfl, rfl, rfl, rfl, rfl, rfl, rfl⟩)

/-! ### Claim C7 -/

/-- C7 counterexample: after the call, the caller's list (first component
of the state-passing embedding `anonymize_user_data_call`) holds
`ANONYMIZED_FIRST` where the input record held `Jane`: the input is
mutated in place, not preserved. -/
theorem anonymize_mutates_callers_records :
    (anonymize_user_data_call [sampleUser]).map
        (fun st => st.1.map fun r => getItem2 r "name" "first") =
      some [some (PyVal.str "ANONYMIZED_FIRST")] ∧
    getItem2 sampleUser "name" "first" = some (PyVal.str "Jane") ∧
    PyVal.str "ANONYMIZED_FIRST" ≠ PyVal.str "Jane" := by
  refine ⟨rfl, rfl, ?_⟩
  simp

/-- C7 amended: `anonymize_user_data` mutates the caller's records in
place and returns the caller's own list: whenever the call succeeds, the
content of the caller's list after the call is identical to the returned
sequence (the anonymized records), so the original un-redacted values are
no longer observable through the caller's reference. -/
theorem anonymize_returns_callers_mutated_list (users out : List PyVal)
    (h : anonymize_user_data users = some out) :
    anonymize_user_data_call users = some (out, out) := by
  simp [anonymize_user_data_call, h]

/-- C7 witness: the amended theorem applied at `[sampleUser]`. -/
theorem anonymize_returns_callers_mutated_list_witness :
    ∃ out, anonymize_user_data [sampleUser] = some out ∧
      anonymize_user_data_call [sampleUser] = some (out, out) := by
  have hS : (anonymize_user_data [sampleUser]).isSome = true := rfl
  cases hE : anonymize_user_data [sampleUser] with
  | none => rw [hE] at hS; simp at hS
  | some out =>
      exact ⟨out, rfl,
        anonymize_returns_callers_mutated_list [sampleUser] out hE⟩

/-! ### Claim C5 -/

/-- C5: on every sequence of records the flattener accepts (each record a
dict whose nested sub-objects, when present, are dicts), flattening
returns exactly one row per record, in input order, with no
deduplication or filtering; every row carries exactly the 34 fixed
columns of §6, in the fixed order, and each column holds the leaf at its
source path with `null` when that path is missing (`specFlatRow`). -/
theorem flatten_one_row_per_record_fixed_columns (users : List PyVal)
    (h : ∀ u ∈ users, GoodRecord u) :
    flatten_user_data users = some (users.map specFlatRow) ∧
    (users.map specFlatRow).length = users.length ∧
    ∀ r ∈ users.map specFlatRow, r.map Prod.fst = flatSchema.map Prod.fst := by
  refine ⟨flatten_user_data_eq users h, by simp, ?_⟩
  intro r hr
  simp only [List.mem_map] at hr
  obtain ⟨u, hu, rfl⟩ := hr
  simp only [specFlatRow, List.map_map]
  rfl

/-- C5 witness: the theorem applied at `[sampleUser]` (a record missing
`timezone`, `registered`, `id` and `picture`, whose columns therefore
come out `null`). -/
theorem flatten_one_row_per_record_fixed_columns_witness :
    flatten_user_data [sampleUser] = some ([sampleUser].map specFlatRow) ∧
    ([sampleUser].map specFlatRow).length = [sampleUser].length ∧
    ∀ r ∈ [sampleUser].map specFlatRow,
      r.map Prod.fst = flatSchema.map Prod.fst :=
  flatten_one_row_per_record_fixed_columns [sampleUser] (by
    intro u hu
    simp only [List.mem_singleton] at hu
    subst hu
    exact ⟨_, _, _, _, _, _, _, _, _, _, _, rfl, rfl, rfl, rfl, rfl, rfl,
      rfl, rfl, rfl, rfl, rfl⟩)

/-! ### Columnar codec (claim C2) -/

/-- Modelled from the spec: a scalar cell of the flat table the producer
builds with pandas/pyarrow (get_user.py lines 174-183) — a string, a
number, or a null.  The parquet codec itself is library code not present
in src/. -/
inductive Cell where
  | text : String → Cell
  | num : Int → Cell
  | null : Cell
  deriving DecidableEq

/-- Modelled from the spec: the per-column type tag the columnar format
stores independently of the values ("column-level type tagging", §3). -/
inductive ColType where
  | text : ColType
  | num : ColType
  deriving DecidableEq

def cellMatches : Cell → ColType → Bool
  | .null, _ => true
  | .text _, .text => true
  | .num _, .num => true
  | _, _ => false

/-- Modelled from the spec: a Table — ordered rows over a fixed typed
column schema (§3). -/
structure Table where
  cols : List (String × ColType)
  rows : List (List Cell)
  deriving DecidableEq

/-- Every row has one cell per column and each cell fits its column's
declared type (nulls fit any type). -/
def Table.wellFormed (t : Table) : Bool :=
  t.rows.all fun r =>
    r.length = t.cols.length &&
    (r.zip t.cols).all fun rc => cellMatches rc.1 rc.2.2

/-- Modelled from the spec: the flat symbol stream of the columnar
artifact (a byte blob in the real format; counts, integers and strings
are kept as single symbols here). -/
inductive Tok where
  | n : Nat → Tok
  | i : Int → Tok
  | s : String → Tok
  deriving DecidableEq

def encCell : Cell → List Tok
  | .null => [.n 0]
  | .text v => [.n 1, .s v]
  | .num z => [.n 2, .i z]

def encColType : ColType → Tok
  | .text => .n 0
  | .num => .n 1

def encCol (c : String × ColType) : List Tok :=
  [.s c.1, encColType c.2]

def encRow (r : List Cell) : List Tok :=
  (r.map encCell).flatten

/-- Modelled from the spec: `serialize` — header with column count, column
names and type tags, then row count and the cells row-major. -/
def serialize (t : Table) : List Tok :=
  .n t.cols.length :: ((t.cols.map encCol).flatten ++
    .n t.rows.length :: (t.rows.map encRow).flatten)

def decCell : List Tok → Option (Cell × List Tok)
  | .n 0 :: rest => some (.null, rest)
  | .n 1 :: .s v :: rest => some (.text v, rest)
  | .n 2 :: .i z :: rest => some (.num z, rest)
  | _ => Option.none

def decCells : Nat → List Tok → Option (List Cell × List Tok)
  | 0, rest => some ([], rest)
  | k+1, toks =>
      match decCell toks with
      | some (c, rest) =>
          match decCells k rest with
          | some (cs, rest2) => some (c :: cs, rest2)
          | Option.none => Option.none
      | Option.none => Option.none

def decColType : Tok → Option ColType
  | .n 0 => some .text
  | .n 1 => some .num
  | _ => Option.none

def decCol : List Tok → Option ((String × ColType) × List Tok)
  | .s v :: ct :: rest =>
      (match decColType ct with
       | some c => some ((v, c), rest)
       | Option.none => Option.none)
  | _ => Option.none

def decCols : Nat → List Tok → Option (List (String × ColType) × List Tok)
  | 0, rest => some ([], rest)
  | k+1, toks =>
      match decCol toks with
      | some (c, rest) =>
          match decCols k rest with
          | some (cs, rest2) => some (c :: cs, rest2)
          | Option.none => Option.none
      | Option.none => Option.none

def decRows : Nat → Nat → List Tok → Option (List (List Cell) × List Tok)
  | 0, _, rest => some ([], rest)
  | k+1, w, toks =>
      match decCells w toks with
      | some (r, rest) =>
          match decRows k w rest with
          | some (rs, rest2) => some (r :: rs, rest2)
          | Option.none => Option.none
      | Option.none => Option.none

/-- Modelled from the spec: `deserialize` — parse the header, the typed
columns and the rows, requiring the stream to be fully consumed. -/
def deserialize (a : List Tok) : Option Table :=
  match a with
  | .n nc :: rest =>
      match decCols nc rest with
      | some (cols, rest2) =>
          match rest2 with
          | .n nr :: rest3 =>
              (match decRows nr nc rest3 with
               | some (rows, []) => some ⟨cols, rows⟩
               | _ => Option.none)
          | _ => Option.none
      | Option.none => Option.none
  | _ => Option.none

theorem decCell_encCell (c : Cell) (rest : List Tok) :
    decCell (encCell c ++ rest) = some (c, rest) := by
  cases c <;> rfl

theorem decCells_encRow (r : List Cell) (rest : List Tok) :
    decCells r.length (encRow r ++ rest) = some (r, rest) := by
  induction r generalizing rest with
  | nil => rfl
  | cons c cs ih =>
      simp only [encRow, List.map_cons, List.flatten_cons, List.append_assoc,
        List.length_cons]
      simp only [decCells, decCell_encCell]
      have h2 := ih rest
      simp only [encRow] at h2
      rw [h2]

theorem decCol_encCol (c : String × ColType) (rest : List Tok) :
    decCol (encCol c ++ rest) = some (c, rest) := by
  obtain ⟨nm, ct⟩ := c
  cases ct <;> rfl

theorem decCols_encCols (cols : List (String × ColType)) (rest : List Tok) :
    decCols cols.length ((cols.map encCol).flatten ++ rest) =
      some (cols, rest) := by
  induction cols generalizing rest with
  | nil => rfl
  | cons c cs ih =>
      simp only [List.map_cons, List.flatten_cons, List.append_assoc,
        List.length_cons]
      simp only [decCols, decCol_encCol]
      rw [ih rest]

theorem decRows_encRows (rows : List (List Cell)) (w : Nat)
    (hw : ∀ r ∈ rows, r.length = w) (rest : List Tok) :
    decRows rows.length w ((rows.map encRow).flatten ++ rest) =
      some (rows, rest) := by
  induction rows generalizing rest with
  | nil => rfl
  | cons r rs ih =>
      have hr : r.length = w := hw r (by simp)
      subst hr
      simp only [List.map_cons, List.flatten_cons, List.append_assoc,
        List.length_cons]
      simp only [decRows, decCells_encRow]
      rw [ih (fun x hx => hw x (by simp [hx])) rest]

/-- C2: deserializing the serialized artifact of any non-empty well-formed
Table reproduces the Table exactly — same row count, same columns, same
per-column types and values; in particular a `postcode` column typed as
text stays text, so a value like "00501" keeps its leading zero. -/
theorem deserialize_serialize_id (t : Table) (hwf : t.wellFormed = true)
    (hne : t.rows ≠ []) : deserialize (serialize t) = some t := by
  obtain ⟨cols, rows⟩ := t
  have hw : ∀ r ∈ rows, r.length = cols.length := by
    intro r hr
    simp only [Table.wellFormed] at hwf
    simp at hwf
    exact (hwf r hr).1
  have hD := decRows_encRows rows cols.length hw []
  rw [List.append_nil] at hD
  simp [serialize, deserialize, decCols_encCols, hD]

/-- A two-column, two-row table whose `postcode` column is text and holds
"00501". -/
def postcodeTable : Table :=
  ⟨[("postcode", .text), ("dob_age", .num)],
   [[.text "00501", .num 0], [.text "90210", .null]]⟩

/-- C2 witness: the round trip at the concrete `postcodeTable`. -/
theorem deserialize_serialize_id_witness :
    postcodeTable.wellFormed = true ∧ postcodeTable.rows ≠ [] ∧
      deserialize (serialize postcodeTable) = some postcodeTable := by
  refine ⟨rfl, by simp [postcodeTable], ?_⟩
  exact deserialize_serialize_id postcodeTable rfl (by simp [postcodeTable])

/-! ### Encryption envelope (claims C3, C4, C8) -/

/-- Modelled from the spec: a Fernet symmetric key (the `cryptography`
library used by `encrypt_file` / `decrypt_file` is not part of src/) — an
opaque byte string. -/
structure FernetKey where
  bytes : List Nat
  deriving DecidableEq

/-- Modelled from the spec: the self-contained ciphertext token — the
per-call nonce/IV, the ciphertext, and the authentication tag computed
over them under the key (§3 CipherToken). -/
structure FernetToken where
  nonce : List Nat
  ct : List Nat
  tag : List Nat
  deriving DecidableEq

/-- Modelled from the spec: the authentication tag as an ideal
(collision-free) MAC — an injective length-prefixed encoding of key,
nonce and ciphertext. -/
def macBytes (k : FernetKey) (nonce ct : List Nat) : List Nat :=
  k.bytes.length :: (k.bytes ++ nonce.length :: (nonce ++ ct))

/-- Keystream byte at position `i`, derived from key and nonce. -/
def keystream (k : FernetKey) (nonce : List Nat) (i : Nat) : Nat :=
  k.bytes.sum + nonce.sum + i

def encBytes (f : Nat → Nat) : Nat → List Nat → List Nat
  | _, [] => []
  | i, b :: bs => (b + f i) % 256 :: encBytes f (i + 1) bs

def decBytes (f : Nat → Nat) : Nat → List Nat → List Nat
  | _, [] => []
  | i, b :: bs => (b + (256 - f i % 256)) % 256 :: decBytes f (i + 1) bs

/-- Modelled from the spec: `Fernet(key).encrypt(p)`, with the per-call
random nonce/IV made an explicit argument (the library draws it fresh
from the OS RNG on every call). -/
def fernetEncrypt (p : List Nat) (k : FernetKey) (nonce : List Nat) :
    FernetToken :=
  let ct := encBytes (keystream k nonce) 0 p
  ⟨nonce, ct, macBytes k nonce ct⟩

/-- Modelled from the spec: `Fernet(key).decrypt(token)` — the tag is
verified over the received nonce and ciphertext before any plaintext is
produced; a failed check raises (`DecryptionError`), embedded as
`Option.none`. -/
def fernetDecrypt (t : FernetToken) (k : FernetKey) : Option (List Nat) :=
  if t.tag = macBytes k t.nonce t.ct
  then some (decBytes (keystream k t.nonce) 0 t.ct)
  else Option.none

theorem decBytes_encBytes (f : Nat → Nat) (bs : List Nat) (i : Nat)
    (h : ∀ b ∈ bs, b < 256) : decBytes f i (encBytes f i bs) = bs := by
  induction bs generalizing i with
  | nil => rfl
  | cons b rest ih =>
      have hb : b < 256 := h b (by simp)
      simp only [encBytes, decBytes]
      rw [ih (i + 1) (fun x hx => h x (by simp [hx]))]
      congr 1
      omega

theorem macBytes_inj {k k2 : FernetKey} {n n2 c c2 : List Nat}
    (h : macBytes k n c = macBytes k2 n2 c2) : k = k2 ∧ n = n2 ∧ c = c2 := by
  simp only [macBytes, List.cons.injEq] at h
  obtain ⟨hlen, hrest⟩ := h
  obtain ⟨hk, hrest2⟩ := List.append_inj hrest hlen
  simp only [List.cons.injEq] at hrest2
  obtain ⟨hnlen, hrest3⟩ := hrest2
  obtain ⟨hn, hc⟩ := List.append_inj hrest3 hnlen
  refine ⟨?_, hn, hc⟩
  cases k
  cases k2
  simpa using hk

/-- Flip bit `j` of byte `i` of a byte string (a single-bit alteration of
the token material). -/
def flipBit (l : List Nat) (i j : Nat) : List Nat :=
  l.set i ((l.getD i 0) ^^^ 2 ^ j)

theorem getD_set_self :
    ∀ (l : List Nat) (i x : Nat), i < l.length → (l.set i x).getD i 0 = x
  | _ :: _, 0, _, _ => rfl
  | _ :: rest, i + 1, x, h => getD_set_self rest i x (by simpa using h)

theorem flipBit_ne (l : List Nat) (i j : Nat) (hi : i < l.length) :
    flipBit l i j ≠ l := by
  intro hEq
  have h1 : (l.set i ((l.getD i 0) ^^^ 2 ^ j)).getD i 0 = l.getD i 0 := by
    rw [show l.set i ((l.getD i 0) ^^^ 2 ^ j) = flipBit l i j from rfl, hEq]
  rw [getD_set_self l i _ hi] at h1
  have hz : (2 : Nat) ^ j = 0 := by
    have h0 : l.getD i 0 ^^^ (l.getD i 0 ^^^ 2 ^ j) = l.getD i 0 ^^^ l.getD i 0 := by
      rw [h1]
    rwa [← Nat.xor_assoc, Nat.xor_self, Nat.zero_xor] at h0
  exact absurd hz (by positivity)

/-- C3: decrypting, under the same key, the token produced by encrypting
any byte blob `p` — the empty blob included — returns exactly `p`. -/
theorem fernet_decrypt_encrypt (p : List Nat) (k : FernetKey)
    (nonce : List Nat) (h : ∀ b ∈ p, b < 256) :
    fernetDecrypt (fernetEncrypt p k nonce) k = some p := by
  simp [fernetEncrypt, fernetDecrypt, decBytes_encBytes _ p 0 h]

/-- C3 witness: the round trip at the empty blob and at a concrete
three-byte blob. -/
theorem fernet_decrypt_encrypt_witness :
    fernetDecrypt (fernetEncrypt [] ⟨[1, 2]⟩ [9]) ⟨[1, 2]⟩ = some [] ∧
    fernetDecrypt (fernetEncrypt [0, 255, 7] ⟨[1, 2]⟩ [9]) ⟨[1, 2]⟩ =
      some [0, 255, 7] :=
  ⟨fernet_decrypt_encrypt [] ⟨[1, 2]⟩ [9] (by simp),
   fernet_decrypt_encrypt [0, 255, 7] ⟨[1, 2]⟩ [9] (by decide)⟩

/-- C4: decryption fails (no plaintext at all) on a wrong key, and on any
single-bit flip in any of the three components of the token; the tag
check is what gates the plaintext. -/
theorem fernet_rejects_wrong_key_and_tampering (p : List Nat)
    (k k2 : FernetKey) (nonce : List Nat) (hk : k2 ≠ k) :
    fernetDecrypt (fernetEncrypt p k nonce) k2 = Option.none ∧
    (∀ i j, i < (fernetEncrypt p k nonce).nonce.length →
      fernetDecrypt ⟨flipBit (fernetEncrypt p k nonce).nonce i j,
        (fernetEncrypt p k nonce).ct, (fernetEncrypt p k nonce).tag⟩ k =
        Option.none) ∧
    (∀ i j, i < (fernetEncrypt p k nonce).ct.length →
      fernetDecrypt ⟨(fernetEncrypt p k nonce).nonce,
        flipBit (fernetEncrypt p k nonce).ct i j,
        (fernetEncrypt p k nonce).tag⟩ k = Option.none) ∧
    (∀ i j, i < (fernetEncrypt p k nonce).tag.length →
      fernetDecrypt ⟨(fernetEncrypt p k nonce).nonce,
        (fernetEncrypt p k nonce).ct,
        flipBit (fernetEncrypt p k nonce).tag i j⟩ k = Option.none) := by
  refine ⟨?_, ?_, ?_, ?_⟩
  · simp only [fernetEncrypt, fernetDecrypt]
    rw [if_neg]
    intro hEq
    exact hk ((macBytes_inj hEq).1).symm
  · intro i j hi
    simp only [fernetEncrypt, fernetDecrypt] at hi ⊢
    rw [if_neg]
    intro hEq
    exact absurd ((macBytes_inj hEq).2.1).symm (flipBit_ne _ i j hi)
  · intro i j hi
    simp only [fernetEncrypt, fernetDecrypt] at hi ⊢
    rw [if_neg]
    intro hEq
    exact absurd ((macBytes_inj hEq).2.2).symm (flipBit_ne _ i j hi)
  · intro i j hi
    simp only [fernetEncrypt, fernetDecrypt] at hi ⊢
    rw [if_neg]
    intro hEq
    exact absurd hEq (flipBit_ne _ i j hi)

/-- C4 witness: wrong key and each single-bit flip at a concrete
plaintext, key and nonce. -/
theorem fernet_rejects_wrong_key_and_tampering_witness :
    fernetDecrypt (fernetEncrypt [5] ⟨[1]⟩ [3]) ⟨[2]⟩ = Option.none ∧
    fernetDecrypt ⟨flipBit (fernetEncrypt [5] ⟨[1]⟩ [3]).nonce 0 0,
      (fernetEncrypt [5] ⟨[1]⟩ [3]).ct,
      (fernetEncrypt [5] ⟨[1]⟩ [3]).tag⟩ ⟨[1]⟩ = Option.none ∧
    fernetDecrypt ⟨(fernetEncrypt [5] ⟨[1]⟩ [3]).nonce,
      flipBit (fernetEncrypt [5] ⟨[1]⟩ [3]).ct 0 0,
      (fernetEncrypt [5] ⟨[1]⟩ [3]).tag⟩ ⟨[1]⟩ = Option.none ∧
    fernetDecrypt ⟨(fernetEncrypt [5] ⟨[1]⟩ [3]).nonce,
      (fernetEncrypt [5] ⟨[1]⟩ [3]).ct,
      flipBit (fernetEncrypt [5] ⟨[1]⟩ [3]).tag 0 0⟩ ⟨[1]⟩ =
      Option.none := by
  have h := fernet_rejects_wrong_key_and_tampering [5] ⟨[1]⟩ ⟨[2]⟩ [3]
    (by decide)
  exact ⟨h.1, h.2.1 0 0 (by decide), h.2.2.1 0 0 (by decide),
    h.2.2.2 0 0 (by decide)⟩

/-- C8: two calls of encrypt with the same key and the same plaintext but
distinct per-call nonces produce distinct tokens — encrypt is not a
deterministic function of (plaintext, key) alone. -/
theorem fernet_fresh_nonce_distinct_tokens (p : List Nat) (k : FernetKey)
    (n1 n2 : List Nat) (h : n1 ≠ n2) :
    fernetEncrypt p k n1 ≠ fernetEncrypt p k n2 := by
  intro hEq
  exact h (congrArg FernetToken.nonce hEq)

/-- C8 witness: distinct nonces at a concrete plaintext and key. -/
theorem fernet_fresh_nonce_distinct_tokens_witness :
    fernetEncrypt [] ⟨[7]⟩ [0] ≠ fernetEncrypt [] ⟨[7]⟩ [1] :=
  fernet_fresh_nonce_distinct_tokens [] ⟨[7]⟩ [0] [1] (by decide)

/-! ### Artifact naming (claim C9) -/

/-- `encrypt_file` (get_user.py line 142): the encrypted artifact's name
is the plaintext file name with `.enc` appended. -/
def encrypted_file_path (file_path : String) : String :=
  file_path ++ ".enc"

/-- The characters of `".enc"`. -/
def encSuffix : List Char := ['.', 'e', 'n', 'c']

/-- Python `s.replace(old, new)` for a nonempty `old`, on character lists:
replace every non-overlapping occurrence, scanning left to right.  The
`Nat` argument is fuel; the scan consumes at least one character per
step, so the input length suffices. -/
def pyReplaceAux (pat rep : List Char) : Nat → List Char → List Char
  | _, [] => []
  | 0, l => l
  | fuel + 1, c :: rest =>
      if pat.isPrefixOf (c :: rest)
      then rep ++ pyReplaceAux pat rep fuel (rest.drop (pat.length - 1))
      else c :: pyReplaceAux pat rep fuel rest

/-- The consumer's local decrypted file name, on character lists
(get_result_from_minio.py line 98):
`'decrypted_' + object_name.replace('.enc', '')`. -/
def decryptedNameChars (obj : List Char) : List Char :=
  "decrypted_".toList ++ pyReplaceAux encSuffix [] obj.length obj

/-- The consumer's local decrypted file name
(get_result_from_minio.py line 98). -/
def decrypted_file_path (object_name : String) : String :=
  String.mk (decryptedNameChars object_name.toList)

/-- The claim's reading of the consumer-side derivation: strip exactly the
trailing `.enc` suffix, and only the suffix. -/
def stripEncSuffix (s : String) : String :=
  if encSuffix.isSuffixOf s.toList
  then String.mk (s.toList.take (s.toList.length - 4))
  else s

theorem pyReplaceAux_nil (pat rep : List Char) (fuel : Nat) :
    pyReplaceAux pat rep fuel [] = [] := by
  cases fuel <;> rfl

theorem pyReplaceAux_cons (pat rep : List Char) (f : Nat) (c : Char)
    (rest : List Char) :
    pyReplaceAux pat rep (f + 1) (c :: rest) =
      if pat.isPrefixOf (c :: rest)
      then rep ++ pyReplaceAux pat rep f (rest.drop (pat.length - 1))
      else c :: pyReplaceAux pat rep f rest := rfl

/-- No occurrence of `".enc"` starts inside `base` when `".enc"` is
appended to it. -/
def noEarlyEnc (base : List Char) : Prop :=
  ∀ i, i < base.length →
    encSuffix.isPrefixOf ((base ++ encSuffix).drop i) = false

instance noEarlyEncDecidable (base : List Char) :
    Decidable (noEarlyEnc base) := by
  unfold noEarlyEnc
  infer_instance

theorem pyReplaceAux_strip :
    ∀ (base : List Char) (fuel : Nat), noEarlyEnc base →
      base.length + 4 ≤ fuel →
      pyReplaceAux encSuffix [] fuel (base ++ encSuffix) = base
  | [], fuel, _, hf => by
      cases fuel with
      | zero => exact absurd hf (by simp)
      | succ f =>
          rw [List.nil_append,
            show encSuffix = '.' :: ['e', 'n', 'c'] from rfl,
            pyReplaceAux_cons, if_pos (by decide)]
          simp [encSuffix, pyReplaceAux_nil]
  | c :: bs, fuel, h, hf => by
      cases fuel with
      | zero => exact absurd hf (by simp)
      | succ f =>
          have h0 := h 0 (by simp)
          simp only [List.drop_zero, List.cons_append] at h0
          rw [List.cons_append, pyReplaceAux_cons, if_neg (by simp [h0])]
          congr 1
          apply pyReplaceAux_strip bs f
          · intro i hi
            have h2 := h (i + 1) (by simpa using Nat.succ_lt_succ hi)
            simpa [List.cons_append] using h2
          · simp only [List.length_cons] at hf
            omega

/-- C9 counterexample: for the object name "a.encb.enc" the consumer
computes "decrypted_ab" — every occurrence of ".enc" is removed, not just
the trailing suffix (which would give "a.encb"). -/
theorem consumer_name_not_suffix_strip :
    decrypted_file_path "a.encb.enc" = "decrypted_ab" ∧
    stripEncSuffix "a.encb.enc" = "a.encb" ∧
    decrypted_file_path "a.encb.enc" ≠
      "decrypted_" ++ stripEncSuffix "a.encb.enc" ∧
    decrypted_file_path "a.encb.enc" ≠ stripEncSuffix "a.encb.enc" := by
  refine ⟨?_, ?_, ?_, ?_⟩ <;> decide

/-- C9 amended: the producer names the artifact `file_path + ".enc"`; the
consumer prepends "decrypted_" and removes every occurrence of the
substring ".enc" from the object name — which coincides with stripping
the trailing suffix exactly when ".enc" occurs nowhere else in the
name. -/
theorem producer_appends_enc_consumer_removes_enc (fp : String)
    (base : List Char) (h : noEarlyEnc base) :
    encrypted_file_path fp = fp ++ ".enc" ∧
    decryptedNameChars (base ++ encSuffix) = "decrypted_".toList ++ base := by
  refine ⟨rfl, ?_⟩
  simp only [decryptedNameChars]
  congr 1
  apply pyReplaceAux_strip base _ h
  simp [encSuffix]

/-- C9 witness: the amended theorem at the producer's actual file name. -/
theorem producer_appends_enc_consumer_removes_enc_witness :
    noEarlyEnc "users_anonymized.parquet".toList ∧
    (encrypted_file_path "users_anonymized.parquet" =
        "users_anonymized.parquet" ++ ".enc" ∧
      decryptedNameChars ("users_anonymized.parquet".toList ++ encSuffix) =
        "decrypted_".toList ++ "users_anonymized.parquet".toList) :=
  ⟨by decide,
   producer_appends_enc_consumer_removes_enc "users_anonymized.parquet"
     "users_anonymized.parquet".toList (by decide)⟩

/-! ### Producer key persistence (claim C10) -/

/-- The externally visible effects of the producer's `main`
(get_user.py lines 147-206), in order. -/
inductive ProdEvent where
  | anonymizeRecords : ProdEvent
  | flattenRecords : ProdEvent
  | writeParquet : ProdEvent
  | encryptArtifact : ProdEvent
  | upload : ProdEvent
  | saveKey : ProdEvent
  deriving DecidableEq

/-- The tail of the producer's `main` (get_user.py lines 163-206) as the
sequence of effects it performs, parametrized by the fetched records and
by whether `fput_object` succeeds.  An empty fetch returns early; an
exception from anonymize or flatten propagates (`Option.none`);
`saveKey` stands for writing `encryption_key.key`, reached only after
the upload try-block succeeds — on failure `main` prints and returns. -/
def producer_main (users : List PyVal) (uploadOk : Bool) :
    Option (List ProdEvent) :=
  if users.isEmpty then some []
  else
    match anonymize_user_data users with
    | Option.none => Option.none
    | some anonymized =>
        match flatten_user_data anonymized with
        | Option.none => Option.none
        | some _ =>
            if uploadOk
            then some [.anonymizeRecords, .flattenRecords, .writeParquet,
              .encryptArtifact, .upload, .saveKey]
            else some [.anonymizeRecords, .flattenRecords, .writeParquet,
              .encryptArtifact, .upload]

/-- C10: whenever the producer's `main` returns normally, the key file is
written only if the upload succeeded — on upload failure `main` returns
without persisting the key — and the key write comes strictly after the
upload in the effect order. -/
theorem key_saved_only_after_successful_upload (users : List PyVal)
    (uploadOk : Bool) (tr : List ProdEvent)
    (h : producer_main users uploadOk = some tr) :
    (ProdEvent.saveKey ∈ tr → uploadOk = true) ∧
    (uploadOk = false → ProdEvent.saveKey ∉ tr) ∧
    (ProdEvent.saveKey ∈ tr →
      tr.indexOf ProdEvent.upload < tr.indexOf ProdEvent.saveKey) := by
  cases hEm : users.isEmpty with
  | true =>
      simp [producer_main, hEm] at h
      subst h
      exact ⟨by simp, by simp, by simp⟩
  | false =>
      cases hA : anonymize_user_data users with
      | none => simp [producer_main, hEm, hA] at h
      | some anonymized =>
          cases hF : flatten_user_data anonymized with
          | none => simp [producer_main, hEm, hA, hF] at h
          | some rows =>
              cases uploadOk with
              | true =>
                  simp [producer_main, hEm, hA, hF] at h
                  subst h
                  exact ⟨fun _ => rfl, by simp, fun _ => by decide⟩
              | false =>
                  simp [producer_main, hEm, hA, hF] at h
                  subst h
                  refine ⟨?_, ?_, ?_⟩
                  · intro hMem; exact absurd hMem (by decide)
                  · intro _; decide
                  · intro hMem; exact absurd hMem (by decide)

/-- C10 witness: a failing upload at a concrete fetched record — the
effect trace ends at `upload`, with no `saveKey`. -/
theorem key_saved_only_after_successful_upload_witness :
    producer_main [sampleUser] false =
      some [ProdEvent.anonymizeRecords, ProdEvent.flattenRecords,
        ProdEvent.writeParquet, ProdEvent.encryptArtifact,
        ProdEvent.upload] ∧
    ((ProdEvent.saveKey ∈ [ProdEvent.anonymizeRecords,
        ProdEvent.flattenRecords, ProdEvent.writeParquet,
        ProdEvent.encryptArtifact, ProdEvent.upload] → false = true) ∧
      (false = false → ProdEvent.saveKey ∉ [ProdEvent.anonymizeRecords,
        ProdEvent.flattenRecords, ProdEvent.writeParquet,
        ProdEvent.encryptArtifact, ProdEvent.upload]) ∧
      (ProdEvent.saveKey ∈ [ProdEvent.anonymizeRecords,
        ProdEvent.flattenRecords, ProdEvent.writeParquet,
        ProdEvent.encryptArtifact, ProdEvent.upload] →
        List.indexOf ProdEvent.upload [ProdEvent.anonymizeRecords,
          ProdEvent.flattenRecords, ProdEvent.writeParquet,
          ProdEvent.encryptArtifact, ProdEvent.upload] <
          List.indexOf ProdEvent.saveKey [ProdEvent.anonymizeRecords,
            ProdEvent.flattenRecords, ProdEvent.writeParquet,
            ProdEvent.encryptArtifact, ProdEvent.upload])) :=
  ⟨rfl, key_saved_only_after_successful_upload [sampleUser] false
    [ProdEvent.anonymizeRecords, ProdEvent.flattenRecords,
      ProdEvent.writeParquet, ProdEvent.encryptArtifact,
      ProdEvent.upload] rfl⟩

end Pipeline
